import Mathlib

/-!
Shallow embedding of `src/exovetter/modshift/modshift.py` (the modshift
transit-significance pipeline) and proofs about it.

Modelling conventions:
* Machine floats are modelled by exact rationals `ℚ`; every rational is
  finite, so numpy's `np.isfinite` assertions hold identically and are not
  re-checked where the source asserts them.
* Fallible code (python `assert`, numpy `ValueError`/`IndexError`,
  python `TypeError`) is modelled with `Except String`; the strings are
  short tags for the exception the source raises at that point.
* 1-d numpy arrays are `List ℚ`; 2-d arrays with a fixed column count are
  lists of tuples.
* `np.std` is `Real.sqrt` of the population variance `np_var`; since
  `Real.sqrt` is strictly monotone on `[0, ∞)` with `Real.sqrt 0 = 0`,
  every comparison the program makes against the scatter (`sigma > 0`,
  equality of scatters of identical samples) is decided at the variance
  level, which keeps the pipeline executable.  `np_std` states the exact
  standard deviation where a claim mentions it.
* `scipy.special.erfcinv` is an external special function; it enters the
  embedding as an explicit function argument `erfcinv : ℝ → ℝ`.
-/

/-- Truncation toward zero: the rounding used by python `int()` and by the
C-library `fmod` that backs `np.fmod`. -/
def ratTrunc (q : ℚ) : ℤ := if 0 ≤ q then ⌊q⌋ else ⌈q⌉

/-- Model of `np.fmod x y`: the remainder `x - y * trunc (x / y)`, which takes
the sign of the dividend `x` (unlike python's `%`).  `np.fmod (x, 0)` is NaN in
numpy; the claims only use `y > 0`. -/
def np_fmod (x y : ℚ) : ℚ := x - y * (ratTrunc (x / y) : ℚ)

/-- Model of `compute_phase` (modshift.py lines 475-476):
`np.fmod(time - epoch + offset * period, period)` mapped over the time array. -/
def compute_phase (time : List ℚ) (period epoch offset : ℚ) : List ℚ :=
  time.map (fun t => np_fmod (t - epoch + offset * period) period)

/-- Model of `np.arange(q)` for a scalar float stop `q`: the naturals
`0, 1, ...` strictly below `q` (empty for `q ≤ 0`). -/
def np_arange (q : ℚ) : List ℚ :=
  (List.range (max ⌈q⌉ 0).toNat).map (fun n : ℕ => (n : ℚ))

/-- Bin edges of `fold_and_bin_data` (lines 449-450):
`bins = np.arange(num_bins) / num_bins * period`.  Note these are the EDGES
handed to `np.histogram`, so they delimit `num_bins - 1` bins covering only
`[0, (num_bins-1)/num_bins * period]`. -/
def binEdges (num_bins period : ℚ) : List ℚ :=
  (np_arange num_bins).map (fun i => i / num_bins * period)

/-- Model of lines 453-455 (`srt = np.argsort(phase); phase = phase[srt];
flux = flux[srt]`): the (phase, flux) pairs reordered so phases are ascending.
`np.argsort` is not stable, but any reorder is a permutation of the pairs and
`np.histogram` is permutation-invariant, so insertion sort by phase is a
faithful model of everything the source computes from the sorted arrays. -/
def sortPairs (l : List (ℚ × ℚ)) : List (ℚ × ℚ) :=
  List.insertionSort (fun a b => a.1 ≤ b.1) l

/-- The folded (phase, flux) pairs fed to the binner (line 452 zipped with the
flux array it is aligned to). -/
def foldedPairs (time flux : List ℚ) (period epoch offset_frac : ℚ) : List (ℚ × ℚ) :=
  (compute_phase time period epoch offset_frac).zip flux

/-- Membership of a value `x` in histogram bin `j` for the given edge list,
with numpy's convention: bins are half-open `[e_j, e_{j+1})` except the final
bin, which is closed `[e_{k-2}, e_{k-1}]`. -/
def binPred (edges : List ℚ) (j : ℕ) (x : ℚ) : Bool :=
  decide (edges.getD j 0 ≤ x) &&
    (if j + 2 = edges.length then decide (x ≤ edges.getD (j + 1) 0)
     else decide (x < edges.getD (j + 1) 0))

/-- Per-bin occupancy counts of `np.histogram(xs, bins=edges)[0]`. -/
def histCounts (xs edges : List ℚ) : List ℕ :=
  (List.range (edges.length - 1)).map (fun j => xs.countP (binPred edges j))

/-- Per-bin weight sums of `np.histogram(xs, bins=edges, weights=ws)[0]`. -/
def histWeights (xs ws edges : List ℚ) : List ℚ :=
  (List.range (edges.length - 1)).map
    (fun j => (((xs.zip ws).filter (fun pw => binPred edges j pw.1)).map Prod.snd).sum)

/-- Numpy's validation of an explicit edge array: adjacent differences must be
nonnegative (`np.any(bin_edges[:-1] > bin_edges[1:])` raises).  Lists with
fewer than two edges pass the check (and yield zero bins). -/
def edgesMono : List ℚ → Bool
  | [] => true
  | [_] => true
  | x :: y :: t => decide (x ≤ y) && edgesMono (y :: t)

/-- Model of `np.histogram(xs, bins=edges)[0]`. -/
def np_histogram (xs edges : List ℚ) : Except String (List ℕ) :=
  if edgesMono edges then Except.ok (histCounts xs edges)
  else Except.error "ValueError: bins must increase monotonically"

/-- Model of `np.histogram(xs, bins=edges, weights=ws)[0]`. -/
def np_histogram_weighted (xs ws edges : List ℚ) : Except String (List ℚ) :=
  if edgesMono edges then Except.ok (histWeights xs ws edges)
  else Except.error "ValueError: bins must increase monotonically"

/-- The three columns lines 459-465 compute for the non-empty bins:
`bins[:-1][idx]`, `binnedFlux[idx]` and `cts[idx]` where `idx = cts > 0`.
The count column is the value the source tries to store into `out[:, 2]`. -/
def selectNonZero (edges : List ℚ) (cts : List ℕ) (ws : List ℚ) : List (ℚ × ℚ × ℚ) :=
  ((edges.dropLast.zip (ws.zip cts)).filter (fun e => decide (0 < e.2.2))).map
    (fun e => (e.1, e.2.1, (e.2.2 : ℚ)))

/-- The retained-bin triples (edge, flux sum in bin, occupancy count) that
`fold_and_bin_data` computes before its final, failing array store. -/
def retainedBins (time flux : List ℚ) (period epoch num_bins offset_frac : ℚ) :
    List (ℚ × ℚ × ℚ) :=
  let bins := binEdges num_bins period
  let pairs := sortPairs (foldedPairs time flux period epoch offset_frac)
  selectNonZero bins (histCounts (pairs.map Prod.fst) bins)
    (histWeights (pairs.map Prod.fst) (pairs.map Prod.snd) bins)

/-- Model of `fold_and_bin_data` (lines 412-466).  Parameter order is that of
the `def` statement: `(time, flux, period, epoch, num_bins, offset_frac)`.
After computing the histogram, the source allocates
`out = np.zeros((numNonZeroBins, 2))`, fills columns 0 and 1, and then runs
`out[:, 2] = cts[idx]` - a store into column 2 of a 2-column array, which
raises `IndexError` unconditionally, so the function never returns. -/
def fold_and_bin_data (time flux : List ℚ) (period epoch num_bins offset_frac : ℚ) :
    Except String (List (ℚ × ℚ × ℚ)) := do
  let bins := binEdges num_bins period
  let pairs := sortPairs (foldedPairs time flux period epoch offset_frac)
  let phase := pairs.map Prod.fst
  let fluxSorted := pairs.map Prod.snd
  let cts ← np_histogram phase bins
  let binnedFlux ← np_histogram_weighted phase fluxSorted bins
  let _out := selectNonZero bins cts binnedFlux
  Except.error "IndexError: index 2 is out of bounds for axis 1 with size 2"

/-- Model of `np.max` on a 1-d array: raises on an empty array. -/
def np_max : List ℚ → Except String ℚ
  | [] => Except.error "ValueError: zero-size array to reduction operation maximum"
  | x :: t => Except.ok (t.foldl max x)

/-- Model of `np.convolve(a, v)` in full mode: output index `k` holds
`sum_i a[i] * v[k - i]`, with length `len a + len v - 1`. -/
def np_convolve (a v : List ℚ) : List ℚ :=
  (List.range (a.length + v.length - 1)).map (fun k =>
    ((List.range a.length).map (fun i =>
      if i ≤ k then a.getD i 0 * v.getD (k - i) 0 else 0)).sum)

/-- Numpy basic slice `l[i:j]` (clamping, never failing). -/
def npSlice (l : List ℚ) (i j : ℕ) : List ℚ := (l.drop i).take (j - i)

/-- Model of `compute_convolution_for_binned_data` (lines 332-375): double the
phase and flux, convolve the doubled flux with the negated model, slice one
model-length window starting at `len(model)`, and re-label its phase by
`np.fmod(phi - offset_frac * period, period)` where `period = np.max(phase)`.
The `np.isfinite` asserts hold for every `ℚ`; the length asserts and the
`np.max` of a possibly-empty array are the failure points kept here. -/
def compute_convolution_for_binned_data (phase flux model : List ℚ) (offset_frac : ℚ) :
    Except String (List (ℚ × ℚ)) :=
  if phase.length ≠ flux.length then
    Except.error "AssertionError: len(phase) == len(flux)"
  else if flux.length ≠ model.length then
    Except.error "AssertionError: len(flux) == len(model)"
  else match np_max phase with
  | Except.error e => Except.error e
  | Except.ok period =>
    let phase2 := phase ++ phase.map (fun x => period + x)
    let flux2 := flux ++ flux
    let conv := np_convolve flux2 (model.map (fun m => -m))
    let i0 := model.length
    let i1 := i0 + model.length
    let phi := npSlice phase2 i0 i1
    let conv2 := npSlice conv i0 i1
    let bphase := phi.map (fun x => np_fmod (x - offset_frac * period) period)
    Except.ok (bphase.zip conv2)

/-- First (lowest-index) minimum value of a list, 0 on the empty list. -/
def listMin : List ℚ → ℚ
  | [] => 0
  | [x] => x
  | x :: y :: t => min x (listMin (y :: t))

/-- Model of `np.argmin`: index of the first occurrence of the minimum. -/
def np_argmin : List ℚ → ℕ
  | [] => 0
  | [_] => 0
  | x :: y :: t => if x ≤ listMin (y :: t) then 0 else np_argmin (y :: t) + 1

/-- First (lowest-index) maximum value of a list, 0 on the empty list. -/
def listMax : List ℚ → ℚ
  | [] => 0
  | [x] => x
  | x :: y :: t => max x (listMax (y :: t))

/-- Model of `np.argmax`: index of the first occurrence of the maximum. -/
def np_argmax : List ℚ → ℕ
  | [] => 0
  | [_] => 0
  | x :: y :: t => if listMax (y :: t) ≤ x then 0 else np_argmax (y :: t) + 1

/-- Model of the masking idiom `ms[idx] = 0` where
`idx = (lo < phase) & (phase < hi)` (both bounds strict in the source). -/
def maskWindow (lo hi : ℚ) (phase ms : List ℚ) : List ℚ :=
  List.zipWith (fun p m => if lo < p ∧ p < hi then 0 else m) phase ms

/-- The four event phases returned by `find_indices_of_key_locations`. -/
structure KeyLocations where
  pri : ℚ
  sec : ℚ
  ter : ℚ
  pos : ℚ
deriving DecidableEq

/-- Model of `find_indices_of_key_locations` (lines 229-288).  `period_days`
is accepted and unused, as in the source.  The source mutates one statistic
array in place; the successive states are `ms`, `ms1` (primary window zeroed),
`ms2` (secondary window also zeroed), and `ms3`/`ms4` (3-transit-width windows
around primary and secondary also zeroed, applied after `ter` is read from
`ms2`).  `np.argmin` of an empty array raises. -/
def find_indices_of_key_locations (conv : List (ℚ × ℚ)) (period_days duration_hrs : ℚ) :
    Except String KeyLocations :=
  if conv.isEmpty then
    Except.error "ValueError: attempt to get argmin of an empty sequence"
  else
    let transit_width := duration_hrs / 24
    let gap_width := 2 * transit_width
    let pos_gap_width := 3 * transit_width
    let phase := conv.map Prod.fst
    let ms := conv.map Prod.snd
    let i0 := np_argmin ms
    let pri := phase.getD i0 0
    let ms1 := maskWindow (pri - gap_width) (pri + gap_width) phase ms
    let i1 := np_argmin ms1
    let sec := phase.getD i1 0
    let ms2 := maskWindow (sec - gap_width) (sec + gap_width) phase ms1
    let i2 := np_argmin ms2
    let ter := phase.getD i2 0
    let ms3 := maskWindow (pri - pos_gap_width) (pri + pos_gap_width) phase ms2
    let ms4 := maskWindow (sec - pos_gap_width) (sec + pos_gap_width) phase ms3
    let i3 := np_argmax ms4
    let pos := phase.getD i3 0
    Except.ok ⟨pri, sec, ter, pos⟩

/-- Population variance: `np.std(xs) = Real.sqrt (np_var xs)`.
`np.std([])` is NaN (never reached behind the `np.any` assert). -/
def np_var (xs : List ℚ) : ℚ :=
  if xs.length = 0 then 0
  else (xs.map (fun x => (x - xs.sum / (xs.length : ℚ)) ^ 2)).sum / (xs.length : ℚ)

/-- The exact standard deviation `np.std` computes, as a real number. -/
noncomputable def np_std (xs : List ℚ) : ℝ := Real.sqrt (np_var xs)

/-- The flux samples `estimate_scatter` keeps: those whose phase is NOT within
the open window of half-width `gdays` around either the primary or the
secondary phase (lines 318-326, all four bounds strict). -/
def scatter_survivors (phi flux : List ℚ) (pri sec gdays : ℚ) : List ℚ :=
  ((phi.zip flux).filter (fun pf =>
    if (pri - gdays < pf.1 ∧ pf.1 < pri + gdays) ∨
       (sec - gdays < pf.1 ∧ pf.1 < sec + gdays) then false else true)).map Prod.snd

/-- Model of `estimate_scatter` (lines 291-329).  The source returns
`np.std(flux[idx])`, i.e. `Real.sqrt` of the value returned here; the square
root is kept out of the return value so the definition stays executable, and
`np_std` recovers the literal standard deviation (see the file header note on
why comparisons are unaffected). -/
def estimate_scatter (phi_days flux : List ℚ) (phi_pri_days phi_sec_days gap_width_hrs : ℚ) :
    Except String ℚ :=
  if phi_days.length ≠ flux.length then
    Except.error "AssertionError: len(phi_days) == len(flux)"
  else
    let gap_width_days := gap_width_hrs / 24
    let kept := scatter_survivors phi_days flux phi_pri_days phi_sec_days gap_width_days
    if kept.isEmpty then Except.error "AssertionError: np.any(idx)"
    else Except.ok (np_var kept)

/-- Lines 102-105 of the orchestrator: run `estimate_scatter` with exclusion
width `2 * duration_hrs` and then `assert sigma > 0`.  The source compares
`sigma = Real.sqrt v > 0`, which holds iff `v > 0`, so the check is decided on
the variance. -/
def scatter_and_check (phi_days flux : List ℚ) (pri sec duration_hrs : ℚ) :
    Except String ℚ := do
  let sigma ← estimate_scatter phi_days flux pri sec (2 * duration_hrs)
  if sigma ≤ 0 then Except.error "AssertionError: sigma > 0"
  else Except.ok sigma

/-- The four significances `compute_event_significances` is documented to
return. -/
structure EventSignificances where
  sigma_pri : ℚ
  sigma_sec : ℚ
  sigma_ter : ℚ
  sigma_pos : ℚ
deriving DecidableEq

/-- Model of `compute_event_significances` (lines 191-226).  Line 219 runs
`assert "pri sec ter pos".split() in results.keys()`: a membership test of the
LIST object inside the dict key view.  Python hashes the probe for that test
and lists are unhashable, so the line raises `TypeError` on every call, before
the nearest-phase loop (lines 221-225: for each key,
`i0 = np.argmin(np.fabs(conv[:, 0] - results[key])); out = conv[i0, 1]`)
can run. -/
def compute_event_significances (conv : List (ℚ × ℚ)) (results : KeyLocations) :
    Except String EventSignificances :=
  Except.error "TypeError: unhashable type: list"

/-- Model of `compute_false_alarm_threshold` (lines 158-188):
`duration_days = duration_hrs / 24; fa = erfcinv(duration_days / period_days);
fa *= sqrt(2)`.  `erfcinv` is scipy's inverse complementary error function,
supplied as an argument. -/
noncomputable def compute_false_alarm_threshold (erfcinv : ℝ → ℝ)
    (period_days duration_hrs : ℝ) : ℝ :=
  let duration_days := duration_hrs / 24
  erfcinv (duration_days / period_days) * Real.sqrt 2

/-- The result record the orchestrator would assemble (line 108-110's dict). -/
structure ModshiftResult where
  pri : ℚ
  sec : ℚ
  ter : ℚ
  pos : ℚ
  sigma_pri : ℚ
  sigma_sec : ℚ
  sigma_ter : ℚ
  sigma_pos : ℚ
  false_alarm_threshold : ℝ

/-- Model of `compute_modshift_metrics` (lines 38-114).  The `np.isfinite`
asserts hold for every `ℚ`; the length assert is kept.  Line 90 passes
arguments positionally as `fold_and_bin_data(time, flux, period_days,
epoch_days, offset, numBins)` while the function's parameters are
`(time, flux, period, epoch, num_bins, offset_frac)`: `offset` (0.25) arrives
as `num_bins` and `numBins` as `offset_frac`, exactly as transcribed below.
`int()` truncates toward zero.  Python float division by `duration_hrs = 0`
would raise `ZeroDivisionError`; here `ℚ` division yields 0 and the run still
ends in an error inside `fold_and_bin_data`, so no `Result` is produced either
way.  The diagnostic `plot_modshift` side call has no effect on the result and
is out of scope. -/
noncomputable def compute_modshift_metrics (erfcinv : ℝ → ℝ)
    (time flux model : List ℚ) (period_days epoch_days duration_hrs : ℚ) :
    Except String ModshiftResult :=
  if time.length ≠ flux.length then
    Except.error "AssertionError: len(time) == len(flux)"
  else do
  let offset : ℚ := 0.25
  let overres : ℚ := 10
  let numBins : ℤ := ratTrunc (overres * period_days * 24 / duration_hrs)
  let data ← fold_and_bin_data time flux period_days epoch_days offset (numBins : ℚ)
  let bphase := data.map (fun r => r.1)
  let bflux := data.map (fun r => r.2.1)
  let bModel0 ← fold_and_bin_data time model period_days epoch_days offset (numBins : ℚ)
  let _bModel := bModel0.map (fun r => (r.1, r.2.1 / r.2.2, r.2.2))
  let conv ← compute_convolution_for_binned_data bphase bflux model offset
  let locs ← find_indices_of_key_locations conv period_days duration_hrs
  let phi_days := compute_phase time period_days epoch_days offset
  let sigma ← scatter_and_check phi_days flux locs.pri locs.sec duration_hrs
  let conv2 := conv.map (fun pc => (pc.1, pc.2 / sigma))
  let sigs ← compute_event_significances conv2 locs
  let fat := compute_false_alarm_threshold erfcinv (period_days : ℝ) (duration_hrs : ℝ)
  return ⟨locs.pri, locs.sec, locs.ter, locs.pos, sigs.sigma_pri, sigs.sigma_sec,
    sigs.sigma_ter, sigs.sigma_pos, fat⟩

/-- Predicate: `p` is the phase of the first (lowest-index) minimum of the
statistic list `ms`, read against the aligned `phase` list. -/
def isFirstMinAt (phase ms : List ℚ) (p : ℚ) : Prop :=
  ∃ i, i < ms.length ∧ p = phase.getD i 0 ∧
    (∀ j, j < ms.length → ms.getD i 0 ≤ ms.getD j 0) ∧
    (∀ j, j < i → ms.getD i 0 < ms.getD j 0)

/-- Predicate: `p` is the phase of the first (lowest-index) maximum of the
statistic list `ms`, read against the aligned `phase` list. -/
def isFirstMaxAt (phase ms : List ℚ) (p : ℚ) : Prop :=
  ∃ i, i < ms.length ∧ p = phase.getD i 0 ∧
    (∀ j, j < ms.length → ms.getD j 0 ≤ ms.getD i 0) ∧
    (∀ j, j < i → ms.getD j 0 < ms.getD i 0)

/-! ## Helper lemmas -/

theorem exceptOk_bind {ε α β : Type} (a : α) (f : α → Except ε β) :
    (Except.ok a : Except ε α) >>= f = f a := rfl

theorem exceptError_bind {ε α β : Type} (e : ε) (f : α → Except ε β) :
    (Except.error e : Except ε α) >>= f = Except.error e := rfl

theorem np_fmod_bounds (x y : ℚ) (hy : 0 < y) :
    -y < np_fmod x y ∧ np_fmod x y < y ∧ (0 ≤ x → 0 ≤ np_fmod x y) := by
  have hy0 : y ≠ 0 := ne_of_gt hy
  have hx : x = y * (x / y) := (mul_div_cancel₀ x hy0).symm
  unfold np_fmod ratTrunc
  by_cases hq : 0 ≤ x / y
  · rw [if_pos hq]
    have h1 : (⌊x / y⌋ : ℚ) ≤ x / y := Int.floor_le _
    have h2 : x / y < (⌊x / y⌋ : ℚ) + 1 := Int.lt_floor_add_one _
    constructor
    · nlinarith
    constructor
    · nlinarith
    · intro _; nlinarith
  · rw [if_neg hq]
    push_neg at hq
    have h1 : x / y ≤ (⌈x / y⌉ : ℚ) := Int.le_ceil _
    have h2 : (⌈x / y⌉ : ℚ) < x / y + 1 := Int.ceil_lt_add_one _
    constructor
    · nlinarith
    constructor
    · nlinarith
    · intro hx0
      exact absurd (div_nonneg hx0 (le_of_lt hy)) (not_le.mpr hq)

/-- Evaluation of `np_fmod` for a dividend already inside `[0, y)`. -/
theorem np_fmod_small {x y : ℚ} (h0 : 0 ≤ x) (h1 : x < y) : np_fmod x y = x := by
  have hy : 0 < y := lt_of_le_of_lt h0 h1
  have hq0 : 0 ≤ x / y := div_nonneg h0 hy.le
  have hq1 : x / y < 1 := (div_lt_one hy).mpr h1
  unfold np_fmod ratTrunc
  rw [if_pos hq0, Int.floor_eq_zero_iff.mpr ⟨hq0, hq1⟩]
  push_cast
  ring

/-- Evaluation of `np_fmod` for a dividend already inside `(-y, 0)`. -/
theorem np_fmod_neg_small {x y : ℚ} (hy : 0 < y) (h0 : x < 0) (h1 : -y < x) :
    np_fmod x y = x := by
  have hq0 : x / y < 0 := div_neg_of_neg_of_pos h0 hy
  have hq1 : -1 < x / y := (lt_div_iff₀ hy).mpr (by linarith)
  unfold np_fmod ratTrunc
  rw [if_neg (not_le.mpr hq0)]
  rw [Int.ceil_eq_zero_iff.mpr (Set.mem_Ioc.mpr ⟨hq1, hq0.le⟩)]
  push_cast
  ring

/-! ## Claim C4 -/

/-- C4 counterexample: for `t = 0`, `period_days = 1`, `epoch_days = 1/2` the
Phase Folder output is `(0 - 1/2 + 0.25 * 1) mod 1 = -1/4`, which does NOT lie
in `[0, 1)`: `np.fmod` keeps the sign of its dividend, so the claimed range
`[0, period_days)` fails whenever `t - epoch + 0.25 * period < 0`. -/
theorem compute_phase_counterexample :
    compute_phase [0] 1 (1/2) (1/4) = [-(1/4)] ∧ ¬(0 ≤ (-(1/4) : ℚ)) := by
  constructor
  · norm_num [compute_phase, np_fmod_neg_small]
  · norm_num

/-- C4 (amended): the Phase Folder is a pure total function; for positive
finite `period_days` every output value lies in the open interval
`(-period_days, period_days)`, and it lies in `[0, period_days)` whenever the
sample's shifted time `t - epoch + 0.25 * period` is nonnegative (`np.fmod`
takes the dividend's sign, so a negative shifted time can leave `[0,
period_days)`, as the counterexample shows; it does not always do so - e.g. a
shifted time of exactly `-period` folds to 0). -/
theorem compute_phase_range (time : List ℚ) (period epoch offset : ℚ)
    (hp : 0 < period) :
    (∀ v ∈ compute_phase time period epoch offset, -period < v ∧ v < period) ∧
    (∀ t ∈ time, 0 ≤ t - epoch + offset * period →
      0 ≤ np_fmod (t - epoch + offset * period) period ∧
      np_fmod (t - epoch + offset * period) period ∈
        compute_phase time period epoch offset) := by
  constructor
  · intro v hv
    rcases List.mem_map.mp hv with ⟨t, _, rfl⟩
    rcases np_fmod_bounds (t - epoch + offset * period) period hp with ⟨h1, h2, _⟩
    exact ⟨h1, h2⟩
  · intro t ht h0
    refine ⟨(np_fmod_bounds _ _ hp).2.2 h0, ?_⟩
    exact List.mem_map.mpr ⟨t, ht, rfl⟩

/-- C4 witness: the amended range theorem applied at `time = [1]`,
`period = 4`, `epoch = 0`, `offset = 1/4`, where the folded value is
`np_fmod 2 4 = 2 ∈ [0, 4)`. -/
theorem compute_phase_range_witness :
    0 ≤ np_fmod ((1 : ℚ) - 0 + (1/4) * 4) 4 ∧
    np_fmod ((1 : ℚ) - 0 + (1/4) * 4) 4 ∈ compute_phase [1] 4 0 (1/4) := by
  have h := (compute_phase_range [1] 4 0 (1/4) (by norm_num)).2 1 (by simp) (by norm_num)
  exact h

/-! ## Claim C9 -/

/-- C9: for positive period and duration with `0 < duration_hrs/24 <
period_days`, the false-alarm threshold is exactly
`sqrt 2 * erfcinv ((duration_hrs/24) / period_days)`. -/
theorem false_alarm_threshold_spec (erfcinv : ℝ → ℝ) (period_days duration_hrs : ℝ)
    (hp : 0 < period_days) (hd : 0 < duration_hrs)
    (hr : duration_hrs / 24 < period_days) :
    compute_false_alarm_threshold erfcinv period_days duration_hrs =
      Real.sqrt 2 * erfcinv (duration_hrs / 24 / period_days) := by
  unfold compute_false_alarm_threshold
  exact mul_comm _ _

/-- C9 witness: at `period_days = 10`, `duration_hrs = 2` (and the identity
standing in for the opaque `erfcinv`), the threshold is
`sqrt 2 * erfcinv (2/24/10)` exactly, the spec's seed regression value. -/
theorem false_alarm_threshold_spec_witness :
    compute_false_alarm_threshold id 10 2 = Real.sqrt 2 * id ((2 : ℝ) / 24 / 10) :=
  false_alarm_threshold_spec id 10 2 (by norm_num) (by norm_num) (by norm_num)

/-! ## Claim C5 -/

/-- C5: on inputs the Convolution Engine accepts (equal-length finite arrays;
nonempty, so `np.max` is defined), it returns a series whose length equals the
binned-series length it was built from.  Finiteness of every statistic is
automatic in the exact-rational model: each entry is a finite sum of products
of rationals. -/
theorem convolution_length_spec (phase flux model : List ℚ) (offset_frac : ℚ)
    (h1 : phase.length = flux.length) (h2 : flux.length = model.length)
    (hne : phase ≠ []) :
    ∃ out, compute_convolution_for_binned_data phase flux model offset_frac =
      Except.ok out ∧ out.length = phase.length := by
  cases phase with
  | nil => exact absurd rfl hne
  | cons p0 ptl =>
    have hL : model.length = ptl.length + 1 := by
      have h3 : (p0 :: ptl).length = model.length := h1.trans h2
      simpa using h3.symm
    have hstep : compute_convolution_for_binned_data (p0 :: ptl) flux model offset_frac =
        Except.ok (((npSlice ((p0 :: ptl) ++ (p0 :: ptl).map
            (fun x => (ptl.foldl max p0) + x)) model.length
            (model.length + model.length)).map
          (fun x => np_fmod (x - offset_frac * (ptl.foldl max p0))
            (ptl.foldl max p0))).zip
          (npSlice (np_convolve (flux ++ flux) (model.map (fun m => -m)))
            model.length (model.length + model.length))) := by
      unfold compute_convolution_for_binned_data
      rw [if_neg (by simp [h1]), if_neg (by simp [h2])]
      rfl
    refine ⟨_, hstep, ?_⟩
    simp only [npSlice, List.length_zip, List.length_take, List.length_drop,
      List.length_map, List.length_append, List.length_cons, np_convolve,
      List.length_range, hL]
    have hF : flux.length = ptl.length + 1 := by
      rw [h2, hL]
    rw [hF]
    omega

/-- C5 witness: the length theorem applied to the concrete accepted input
`phase = [0, 1]`, `flux = [2, 3]`, `model = [4, 5]`. -/
theorem convolution_length_spec_witness :
    ∃ out, compute_convolution_for_binned_data [0, 1] [2, 3] [4, 5] (1/4) =
      Except.ok out ∧ out.length = ([0, 1] : List ℚ).length :=
  convolution_length_spec [0, 1] [2, 3] [4, 5] (1/4) rfl rfl (by simp)

/-! ## Claim C6 -/

/-- C6: when no sample survives the exclusion windows, `estimate_scatter`
fails with the `np.any` assertion; when it returns a scatter that is not
strictly positive (the source's `sigma = sqrt v` is nonpositive exactly when
the variance `v` is), the orchestrator's `assert sigma > 0` (lines 102-105,
embedded as `scatter_and_check`) fails; and `scatter_and_check` never returns
a nonpositive scatter.  In particular a scatter of exactly 0 raises instead of
being returned. -/
theorem scatter_degenerate_spec (phi flux : List ℚ) (pri sec duration_hrs : ℚ)
    (hlen : phi.length = flux.length) :
    (scatter_survivors phi flux pri sec (2 * duration_hrs / 24) = [] →
      estimate_scatter phi flux pri sec (2 * duration_hrs) =
        Except.error "AssertionError: np.any(idx)") ∧
    (∀ v, estimate_scatter phi flux pri sec (2 * duration_hrs) = Except.ok v →
      v ≤ 0 →
      scatter_and_check phi flux pri sec duration_hrs =
        Except.error "AssertionError: sigma > 0") ∧
    (∀ v, scatter_and_check phi flux pri sec duration_hrs = Except.ok v → 0 < v) := by
  refine ⟨?_, ?_, ?_⟩
  · intro hempty
    simp [estimate_scatter, hlen, hempty]
  · intro v hok hv
    unfold scatter_and_check
    rw [hok, exceptOk_bind, if_pos hv]
  · intro v hok
    unfold scatter_and_check at hok
    cases hest : estimate_scatter phi flux pri sec (2 * duration_hrs) with
    | error e =>
      rw [hest, exceptError_bind] at hok
      simp at hok
    | ok w =>
      rw [hest, exceptOk_bind] at hok
      by_cases hw : w ≤ 0
      · rw [if_pos hw] at hok
        simp at hok
      · rw [if_neg hw] at hok
        injection hok with hwv
        exact hwv ▸ not_le.mp hw

/-- C6 witness: the spec's hand-built five-point scenario.  Phases
`[1,2,3,4,5]`, flux `[0,0,10,0,0]`, primary and secondary at phase 3,
`duration_hrs = 6`: the exclusion half-width is `12/24 = 1/2`, the flux-10
sample is excluded, the four surviving samples have scatter exactly 0, and the
pipeline raises rather than returning 0. -/
theorem scatter_degenerate_spec_witness :
    scatter_and_check [1, 2, 3, 4, 5] [0, 0, 10, 0, 0] 3 3 6 =
      Except.error "AssertionError: sigma > 0" := by
  have hest : estimate_scatter [1, 2, 3, 4, 5] [0, 0, 10, 0, 0] 3 3 (2 * 6) =
      Except.ok 0 := by
    norm_num [estimate_scatter, scatter_survivors, np_var, List.filter]
  exact (scatter_degenerate_spec [1, 2, 3, 4, 5] [0, 0, 10, 0, 0] 3 3 6 rfl).2.1
    0 hest le_rfl

/-! ## Claim C10 -/

/-- Filtering with a stronger predicate keeps at most as many elements. -/
theorem length_filter_mono {α : Type} (l : List α) (p q : α → Bool)
    (h : ∀ a, p a = true → q a = true) :
    (l.filter p).length ≤ (l.filter q).length := by
  induction l with
  | nil => simp
  | cons x t ih =>
    simp only [List.filter_cons]
    by_cases hx : p x = true
    · rw [if_pos hx, if_pos (h x hx)]
      simpa using ih
    · rw [if_neg hx]
      by_cases hq : q x = true
      · rw [if_pos hq]
        simp only [List.length_cons]
        omega
      · rw [if_neg hq]
        exact ih

/-- C10: widening the exclusion half-width never increases the number of
samples the Scatter Estimator keeps, and with half-width 0 the estimator keeps
every sample, so its estimate is the standard deviation of the full series
(stated both at the variance level returned by the executable model and at the
`np_std` level). -/
theorem scatter_monotone_spec (phi flux : List ℚ) (pri sec g g' : ℚ) :
    (g < g' → (scatter_survivors phi flux pri sec g').length ≤
      (scatter_survivors phi flux pri sec g).length) ∧
    (phi.length = flux.length → flux ≠ [] →
      scatter_survivors phi flux pri sec 0 = flux ∧
      estimate_scatter phi flux pri sec 0 = Except.ok (np_var flux) ∧
      np_std (scatter_survivors phi flux pri sec 0) = np_std flux) := by
  constructor
  · intro hg
    unfold scatter_survivors
    simp only [List.length_map]
    apply length_filter_mono
    intro pf hpf
    by_cases hc : (pri - g < pf.1 ∧ pf.1 < pri + g) ∨ (sec - g < pf.1 ∧ pf.1 < sec + g)
    · exfalso
      have hc' : (pri - g' < pf.1 ∧ pf.1 < pri + g') ∨
          (sec - g' < pf.1 ∧ pf.1 < sec + g') := by
        rcases hc with ⟨a, b⟩ | ⟨a, b⟩
        · exact Or.inl ⟨by linarith, by linarith⟩
        · exact Or.inr ⟨by linarith, by linarith⟩
      rw [if_pos hc'] at hpf
      exact Bool.false_ne_true hpf
    · rw [if_neg hc]
  · intro hlen hne
    have hsurv : scatter_survivors phi flux pri sec 0 = flux := by
      unfold scatter_survivors
      have hfil : ∀ pf ∈ phi.zip flux,
          (if (pri - 0 < pf.1 ∧ pf.1 < pri + 0) ∨
              (sec - 0 < pf.1 ∧ pf.1 < sec + 0) then false else true) = true := by
        intro pf _
        rw [if_neg]
        rintro (⟨a, b⟩ | ⟨a, b⟩) <;> linarith
      rw [List.filter_eq_self.mpr hfil]
      exact List.map_snd_zip phi flux (le_of_eq hlen.symm)
    refine ⟨hsurv, ?_, by rw [hsurv]⟩
    unfold estimate_scatter
    rw [if_neg (by simp [hlen])]
    simp only [zero_div, hsurv, List.isEmpty_iff]
    rw [if_neg hne]

/-- C10 witness: the monotonicity and zero-width parts applied at phases
`[0, 1, 2]`, flux `[5, 6, 7]`, `pri = sec = 1`, half-widths `1/24 < 2/24`. -/
theorem scatter_monotone_spec_witness :
    ((scatter_survivors [0, 1, 2] [5, 6, 7] 1 1 (2/24)).length ≤
      (scatter_survivors [0, 1, 2] [5, 6, 7] 1 1 (1/24)).length) ∧
    estimate_scatter [0, 1, 2] [5, 6, 7] 1 1 0 = Except.ok (np_var [5, 6, 7]) :=
  ⟨(scatter_monotone_spec [0, 1, 2] [5, 6, 7] 1 1 (1/24) (2/24)).1 (by norm_num),
   ((scatter_monotone_spec [0, 1, 2] [5, 6, 7] 1 1 0 0).2 rfl (by simp)).2.1⟩

/-! ## argmin / argmax characterization lemmas -/

theorem listMin_cons2 (x y : ℚ) (t : List ℚ) :
    listMin (x :: y :: t) = min x (listMin (y :: t)) := rfl

theorem np_argmin_cons2 (x y : ℚ) (t : List ℚ) :
    np_argmin (x :: y :: t) =
      if x ≤ listMin (y :: t) then 0 else np_argmin (y :: t) + 1 := rfl

theorem listMax_cons2 (x y : ℚ) (t : List ℚ) :
    listMax (x :: y :: t) = max x (listMax (y :: t)) := rfl

theorem np_argmax_cons2 (x y : ℚ) (t : List ℚ) :
    np_argmax (x :: y :: t) =
      if listMax (y :: t) ≤ x then 0 else np_argmax (y :: t) + 1 := rfl

theorem listMin_le_mem : ∀ (l : List ℚ), ∀ x ∈ l, listMin l ≤ x := by
  intro l
  induction l with
  | nil => intro x hx; cases hx
  | cons a t ih =>
    intro x hx
    cases t with
    | nil =>
      rcases List.mem_singleton.mp hx with rfl
      exact le_refl _
    | cons b t2 =>
      rw [listMin_cons2]
      rcases List.mem_cons.mp hx with rfl | hmem
      · exact min_le_left _ _
      · exact le_trans (min_le_right _ _) (ih x hmem)

theorem mem_le_listMax : ∀ (l : List ℚ), ∀ x ∈ l, x ≤ listMax l := by
  intro l
  induction l with
  | nil => intro x hx; cases hx
  | cons a t ih =>
    intro x hx
    cases t with
    | nil =>
      rcases List.mem_singleton.mp hx with rfl
      exact le_refl _
    | cons b t2 =>
      rw [listMax_cons2]
      rcases List.mem_cons.mp hx with rfl | hmem
      · exact le_max_left _ _
      · exact le_trans (ih x hmem) (le_max_right _ _)

theorem np_argmin_lt_length : ∀ (l : List ℚ), l ≠ [] → np_argmin l < l.length := by
  intro l
  induction l with
  | nil => intro h; exact absurd rfl h
  | cons a t ih =>
    intro _
    cases t with
    | nil => simp [np_argmin]
    | cons b t2 =>
      rw [np_argmin_cons2]
      by_cases hc : a ≤ listMin (b :: t2)
      · rw [if_pos hc]; simp
      · rw [if_neg hc]
        have := ih (by simp)
        simp only [List.length_cons] at this ⊢
        omega

theorem np_argmax_lt_length : ∀ (l : List ℚ), l ≠ [] → np_argmax l < l.length := by
  intro l
  induction l with
  | nil => intro h; exact absurd rfl h
  | cons a t ih =>
    intro _
    cases t with
    | nil => simp [np_argmax]
    | cons b t2 =>
      rw [np_argmax_cons2]
      by_cases hc : listMax (b :: t2) ≤ a
      · rw [if_pos hc]; simp
      · rw [if_neg hc]
        have := ih (by simp)
        simp only [List.length_cons] at this ⊢
        omega

theorem getD_np_argmin : ∀ (l : List ℚ), l ≠ [] → l.getD (np_argmin l) 0 = listMin l := by
  intro l
  induction l with
  | nil => intro h; exact absurd rfl h
  | cons a t ih =>
    intro _
    cases t with
    | nil => rfl
    | cons b t2 =>
      rw [np_argmin_cons2, listMin_cons2]
      by_cases hc : a ≤ listMin (b :: t2)
      · rw [if_pos hc, min_eq_left hc]
        rfl
      · rw [if_neg hc, min_eq_right (not_le.mp hc).le]
        simpa using ih (by simp)

theorem getD_np_argmax : ∀ (l : List ℚ), l ≠ [] → l.getD (np_argmax l) 0 = listMax l := by
  intro l
  induction l with
  | nil => intro h; exact absurd rfl h
  | cons a t ih =>
    intro _
    cases t with
    | nil => rfl
    | cons b t2 =>
      rw [np_argmax_cons2, listMax_cons2]
      by_cases hc : listMax (b :: t2) ≤ a
      · rw [if_pos hc, max_eq_left hc]
        rfl
      · rw [if_neg hc, max_eq_right (not_le.mp hc).le]
        simpa using ih (by simp)

theorem np_argmin_first : ∀ (l : List ℚ) (j : ℕ), j < np_argmin l →
    listMin l < l.getD j 0 := by
  intro l
  induction l with
  | nil => intro j hj; simp [np_argmin] at hj
  | cons a t ih =>
    intro j hj
    cases t with
    | nil => simp [np_argmin] at hj
    | cons b t2 =>
      rw [np_argmin_cons2] at hj
      by_cases hc : a ≤ listMin (b :: t2)
      · rw [if_pos hc] at hj; omega
      · rw [if_neg hc] at hj
        rw [listMin_cons2, min_eq_right (not_le.mp hc).le]
        cases j with
        | zero => simpa using not_le.mp hc
        | succ j2 =>
          have hj2 : j2 < np_argmin (b :: t2) := by omega
          simpa using ih j2 hj2

theorem np_argmax_first : ∀ (l : List ℚ) (j : ℕ), j < np_argmax l →
    l.getD j 0 < listMax l := by
  intro l
  induction l with
  | nil => intro j hj; simp [np_argmax] at hj
  | cons a t ih =>
    intro j hj
    cases t with
    | nil => simp [np_argmax] at hj
    | cons b t2 =>
      rw [np_argmax_cons2] at hj
      by_cases hc : listMax (b :: t2) ≤ a
      · rw [if_pos hc] at hj; omega
      · rw [if_neg hc] at hj
        rw [listMax_cons2, max_eq_right (not_le.mp hc).le]
        cases j with
        | zero => simpa using not_le.mp hc
        | succ j2 =>
          have hj2 : j2 < np_argmax (b :: t2) := by omega
          simpa using ih j2 hj2

theorem isFirstMinAt_argmin (phase ms : List ℚ) (hlen : ms.length = phase.length)
    (hne : ms ≠ []) : isFirstMinAt phase ms (phase.getD (np_argmin ms) 0) := by
  refine ⟨np_argmin ms, np_argmin_lt_length ms hne, rfl, ?_, ?_⟩
  · intro j hj
    rw [getD_np_argmin ms hne, List.getD_eq_getElem ms 0 hj]
    exact listMin_le_mem ms _ (List.getElem_mem hj)
  · intro j hj
    rw [getD_np_argmin ms hne]
    exact np_argmin_first ms j hj

theorem isFirstMaxAt_argmax (phase ms : List ℚ) (hlen : ms.length = phase.length)
    (hne : ms ≠ []) : isFirstMaxAt phase ms (phase.getD (np_argmax ms) 0) := by
  refine ⟨np_argmax ms, np_argmax_lt_length ms hne, rfl, ?_, ?_⟩
  · intro j hj
    rw [getD_np_argmax ms hne, List.getD_eq_getElem ms 0 hj]
    exact mem_le_listMax ms _ (List.getElem_mem hj)
  · intro j hj
    rw [getD_np_argmax ms hne]
    exact np_argmax_first ms j hj

theorem maskWindow_length (lo hi : ℚ) (phase ms : List ℚ) :
    (maskWindow lo hi phase ms).length = min phase.length ms.length := by
  simp [maskWindow]

/-! ## Claim C3 -/

/-- C3 (amended): for every non-empty ConvolutionSeries, `pri` is the phase of
the global minimum of the raw statistic (lowest index among ties); `sec` is
the phase at the first minimum of the statistic AFTER the entries with phase
in the open window `(pri - 2w, pri + 2w)` (`w = duration_hrs/24`) are
overwritten with 0 - which may lie inside that window, since a zeroed entry
can itself be the minimum; `ter` is likewise the first minimum after the
`sec` window is also zeroed; and `pos` is the phase at the first maximum after
3w-windows around `pri` and `sec` are additionally zeroed (applied to the
state in which `pri` and `sec` 2w-windows were zeroed, not the `ter` one).
Exclusion of the windows themselves is NOT guaranteed (see the
counterexample). -/
theorem find_key_locations_spec (conv : List (ℚ × ℚ)) (period_days duration_hrs : ℚ)
    (hne : conv ≠ []) :
    ∃ r, find_indices_of_key_locations conv period_days duration_hrs = Except.ok r ∧
      isFirstMinAt (conv.map Prod.fst) (conv.map Prod.snd) r.pri ∧
      isFirstMinAt (conv.map Prod.fst)
        (maskWindow (r.pri - 2 * (duration_hrs / 24)) (r.pri + 2 * (duration_hrs / 24))
          (conv.map Prod.fst) (conv.map Prod.snd)) r.sec ∧
      isFirstMinAt (conv.map Prod.fst)
        (maskWindow (r.sec - 2 * (duration_hrs / 24)) (r.sec + 2 * (duration_hrs / 24))
          (conv.map Prod.fst)
          (maskWindow (r.pri - 2 * (duration_hrs / 24)) (r.pri + 2 * (duration_hrs / 24))
            (conv.map Prod.fst) (conv.map Prod.snd))) r.ter ∧
      isFirstMaxAt (conv.map Prod.fst)
        (maskWindow (r.sec - 3 * (duration_hrs / 24)) (r.sec + 3 * (duration_hrs / 24))
          (conv.map Prod.fst)
          (maskWindow (r.pri - 3 * (duration_hrs / 24)) (r.pri + 3 * (duration_hrs / 24))
            (conv.map Prod.fst)
            (maskWindow (r.sec - 2 * (duration_hrs / 24)) (r.sec + 2 * (duration_hrs / 24))
              (conv.map Prod.fst)
              (maskWindow (r.pri - 2 * (duration_hrs / 24)) (r.pri + 2 * (duration_hrs / 24))
                (conv.map Prod.fst) (conv.map Prod.snd))))) r.pos := by
  have hlen0 : (conv.map Prod.snd).length = (conv.map Prod.fst).length := by simp
  have hphne : (conv.map Prod.fst).length ≠ 0 := by simp [hne]
  have hmsne : conv.map Prod.snd ≠ [] := by simp [hne]
  have hmask : ∀ (lo hi : ℚ) (ms : List ℚ), ms.length = (conv.map Prod.fst).length →
      (maskWindow lo hi (conv.map Prod.fst) ms).length = (conv.map Prod.fst).length ∧
      maskWindow lo hi (conv.map Prod.fst) ms ≠ [] := by
    intro lo hi ms hm
    have h1 : (maskWindow lo hi (conv.map Prod.fst) ms).length =
        (conv.map Prod.fst).length := by
      rw [maskWindow_length, hm, min_self]
    refine ⟨h1, ?_⟩
    intro hnil
    rw [hnil] at h1
    exact hphne h1.symm
  unfold find_indices_of_key_locations
  rw [if_neg (by simp [List.isEmpty_iff, hne])]
  refine ⟨_, rfl, ?_, ?_, ?_, ?_⟩
  · exact isFirstMinAt_argmin _ _ hlen0 hmsne
  · exact isFirstMinAt_argmin _ _ (hmask _ _ _ hlen0).1 (hmask _ _ _ hlen0).2
  · exact isFirstMinAt_argmin _ _
      (hmask _ _ _ ((hmask _ _ _ hlen0).1)).1
      (hmask _ _ _ ((hmask _ _ _ hlen0).1)).2
  · exact isFirstMaxAt_argmax _ _
      (hmask _ _ _ ((hmask _ _ _ ((hmask _ _ _ ((hmask _ _ _ hlen0).1)).1)).1)).1
      (hmask _ _ _ ((hmask _ _ _ ((hmask _ _ _ ((hmask _ _ _ hlen0).1)).1)).1)).2

/-- C3 counterexample: with `conv = [(0,1),(1,2),(2,3)]`, `period_days = 10`,
`duration_hrs = 1` (`transit_width = 1/24`), the primary is at phase 0, the
masking only zeroes the entry at phase 0, and the zeroed entry (value 0) is
then the minimum of the masked statistic, so `sec = 0 = pri`: `sec` lies
strictly INSIDE the open exclusion window
`(pri - 2*transit_width, pri + 2*transit_width)`, contradicting the claim
(and `ter = 0` as well). -/
theorem key_locations_counterexample :
    find_indices_of_key_locations [((0:ℚ), 1), (1, 2), (2, 3)] 10 1 =
      Except.ok ⟨0, 0, 0, 2⟩ ∧
    ((0:ℚ) - 2 * ((1:ℚ) / 24) < (0:ℚ) ∧ (0:ℚ) < (0:ℚ) + 2 * ((1:ℚ) / 24)) := by
  constructor
  · norm_num [find_indices_of_key_locations, np_argmin, np_argmax, listMin, listMax,
      maskWindow, List.getD, min_def, max_def]
  · norm_num

/-- C3 witness: the amended theorem applied to the concrete non-empty series
`[(0, 5)]`. -/
theorem find_key_locations_spec_witness :
    ([((0:ℚ), (5:ℚ))] : List (ℚ × ℚ)) ≠ [] ∧
    ∃ r, find_indices_of_key_locations [((0:ℚ), (5:ℚ))] 10 1 = Except.ok r := by
  refine ⟨by simp, ?_⟩
  obtain ⟨r, hr, -, -, -, -⟩ := find_key_locations_spec [((0:ℚ), (5:ℚ))] 10 1 (by simp)
  exact ⟨r, hr⟩

/-! ## Binner lemmas -/

theorem edgesMono_of_pairwise : ∀ (l : List ℚ),
    List.Pairwise (· ≤ ·) l → edgesMono l = true := by
  intro l
  induction l with
  | nil => intro _; rfl
  | cons a t ih =>
    intro hp
    cases t with
    | nil => rfl
    | cons b t2 =>
      have hab : a ≤ b := (List.pairwise_cons.mp hp).1 b (by simp)
      have ht : List.Pairwise (· ≤ ·) (b :: t2) := (List.pairwise_cons.mp hp).2
      show (decide (a ≤ b) && edgesMono (b :: t2)) = true
      simp [hab, ih ht]

theorem binEdges_pairwise (num_bins period : ℚ) (hnb : 0 < num_bins)
    (hp : 0 < period) : List.Pairwise (· ≤ ·) (binEdges num_bins period) := by
  unfold binEdges np_arange
  rw [List.pairwise_map, List.pairwise_map]
  refine (List.pairwise_lt_range _).imp ?_
  intro a b hab
  have hc : (a : ℚ) ≤ (b : ℚ) := Nat.cast_le.mpr hab.le
  gcongr

theorem fold_and_bin_fails (time flux : List ℚ) (period epoch num_bins offset_frac : ℚ)
    (hmono : edgesMono (binEdges num_bins period) = true) :
    fold_and_bin_data time flux period epoch num_bins offset_frac =
      Except.error "IndexError: index 2 is out of bounds for axis 1 with size 2" := by
  simp only [fold_and_bin_data, np_histogram, np_histogram_weighted, hmono, if_true,
    exceptOk_bind]

theorem zip_fst_snd {α β : Type} : ∀ (l : List (α × β)),
    (l.map Prod.fst).zip (l.map Prod.snd) = l := by
  intro l
  induction l with
  | nil => rfl
  | cons a t ih => simp [ih]

theorem retainedBins_spec (time flux : List ℚ) (period epoch num_bins offset_frac : ℚ) :
    ∀ b ∈ retainedBins time flux period epoch num_bins offset_frac,
      ∃ j, j + 1 < (binEdges num_bins period).length ∧
        b.1 = (binEdges num_bins period).getD j 0 ∧
        b.2.1 = (((foldedPairs time flux period epoch offset_frac).filter
          (fun pf => binPred (binEdges num_bins period) j pf.1)).map Prod.snd).sum ∧
        b.2.2 = ((foldedPairs time flux period epoch offset_frac).countP
          (fun pf => binPred (binEdges num_bins period) j pf.1) : ℚ) ∧
        0 < (foldedPairs time flux period epoch offset_frac).countP
          (fun pf => binPred (binEdges num_bins period) j pf.1) := by
  intro b hb
  have hperm : (sortPairs (foldedPairs time flux period epoch offset_frac)).Perm
      (foldedPairs time flux period epoch offset_frac) :=
    List.perm_insertionSort _ _
  unfold retainedBins selectNonZero at hb
  simp only [List.mem_map, List.mem_filter] at hb
  obtain ⟨c, ⟨hcz, hcp⟩, rfl⟩ := hb
  rw [List.mem_iff_getElem] at hcz
  obtain ⟨i, hi, hci⟩ := hcz
  have hik : i < (binEdges num_bins period).length - 1 := by
    simp only [List.length_zip, List.length_dropLast, histWeights, histCounts,
      List.length_map, List.length_range, min_self] at hi
    omega
  have hiE : i < (binEdges num_bins period).length := by omega
  have hiW : i < (histWeights
      ((sortPairs (foldedPairs time flux period epoch offset_frac)).map Prod.fst)
      ((sortPairs (foldedPairs time flux period epoch offset_frac)).map Prod.snd)
      (binEdges num_bins period)).length := by
    simp only [histWeights, List.length_map, List.length_range]
    omega
  have hiC : i < (histCounts
      ((sortPairs (foldedPairs time flux period epoch offset_frac)).map Prod.fst)
      (binEdges num_bins period)).length := by
    simp only [histCounts, List.length_map, List.length_range]
    omega
  rw [List.getElem_zip, List.getElem_zip] at hci
  obtain rfl := hci
  have hws : (histWeights
      ((sortPairs (foldedPairs time flux period epoch offset_frac)).map Prod.fst)
      ((sortPairs (foldedPairs time flux period epoch offset_frac)).map Prod.snd)
      (binEdges num_bins period)).getD i 0 =
      (((foldedPairs time flux period epoch offset_frac).filter
        (fun pf => binPred (binEdges num_bins period) i pf.1)).map Prod.snd).sum := by
    rw [List.getD_eq_getElem _ 0 hiW]
    simp only [histWeights, List.getElem_map, List.getElem_range, zip_fst_snd]
    exact ((hperm.filter _).map Prod.snd).sum_eq
  have hcts : (histCounts
      ((sortPairs (foldedPairs time flux period epoch offset_frac)).map Prod.fst)
      (binEdges num_bins period)).getD i 0 =
      (foldedPairs time flux period epoch offset_frac).countP
        (fun pf => binPred (binEdges num_bins period) i pf.1) := by
    rw [List.getD_eq_getElem _ 0 hiC]
    simp only [histCounts, List.getElem_map, List.getElem_range, List.countP_map]
    exact hperm.countP_eq _
  refine ⟨i, by omega, ?_, ?_, ?_, ?_⟩
  · exact (List.getElem_dropLast (binEdges num_bins period) i
      (by simp only [List.length_dropLast]; omega)).trans
      (List.getD_eq_getElem _ 0 hiE).symm
  · exact (List.getD_eq_getElem _ 0 hiW).symm.trans hws
  · exact congrArg (fun n : ℕ => (n : ℚ))
      ((List.getD_eq_getElem _ 0 hiC).symm.trans hcts)
  · exact lt_of_lt_of_eq (of_decide_eq_true hcp)
      ((List.getD_eq_getElem _ 0 hiC).symm.trans hcts)

/-! ## Claim C2 -/

/-- C2 counterexample: binning `time = [0, 1/2]`, `flux = [1, 3]` with
`period = 1`, `epoch = 0`, `num_bins = 2`, `offset_frac = 0` puts both samples
into the single histogram bin `[0, 1/2]`.  The Binner (a) raises IndexError
before returning anything (2-column allocation, 3-column store), and (b) the
bin value it computes is the flux SUM `4` with count `2`, not the arithmetic
mean `(1+3)/2 = 2` the claim asserts. -/
theorem fold_and_bin_counterexample :
    fold_and_bin_data [0, 1/2] [1, 3] 1 0 2 0 =
      Except.error "IndexError: index 2 is out of bounds for axis 1 with size 2" ∧
    retainedBins [0, 1/2] [1, 3] 1 0 2 0 = [(0, 4, 2)] ∧
    ((retainedBins [0, 1/2] [1, 3] 1 0 2 0).getD 0 (0, 0, 0)).2.1 ≠
      ((1 : ℚ) + 3) / 2 := by
  have hedges : binEdges 2 1 = [0, 1/2] := by
    unfold binEdges np_arange
    have hc : ⌈(2 : ℚ)⌉ = 2 := by norm_num [Int.ceil_ofNat]
    rw [hc]
    have htn : (max (2 : ℤ) 0).toNat = 2 := by decide
    rw [htn]
    norm_num [List.range_succ, Function.comp]
  have hbins : retainedBins [0, 1/2] [1, 3] 1 0 2 0 = [(0, 4, 2)] := by
    unfold retainedBins
    rw [hedges]
    norm_num [foldedPairs, compute_phase, np_fmod_small, sortPairs,
      List.insertionSort, List.orderedInsert, histCounts, histWeights, binPred,
      selectNonZero, List.range_succ, List.countP_cons, List.countP_nil,
      List.getD, List.zip_cons_cons, List.filter]
  refine ⟨?_, hbins, ?_⟩
  · exact fold_and_bin_fails _ _ _ _ _ _ (by rw [hedges]; norm_num [edgesMono])
  · rw [hbins]
    norm_num

/-- C2 (amended): on every input with positive period and positive bin count,
`fold_and_bin_data` raises IndexError before returning (it allocates a
2-column array and stores into column 2); and every retained-bin triple it
computes on the way holds (bin left edge, SUM of the folded flux samples whose
phase lies in that bin - half-open except for the closed final histogram bin,
per `binPred` - and the strictly positive sample count); zero-count bins are
dropped.  The arithmetic MEAN of the claim is not what is stored: the caller
recovers a mean only for the model series, by dividing column 1 by column 2. -/
theorem fold_and_bin_retained_bins_spec (time flux : List ℚ)
    (period epoch num_bins offset_frac : ℚ) (hp : 0 < period) (hnb : 0 < num_bins) :
    fold_and_bin_data time flux period epoch num_bins offset_frac =
      Except.error "IndexError: index 2 is out of bounds for axis 1 with size 2" ∧
    ∀ b ∈ retainedBins time flux period epoch num_bins offset_frac,
      ∃ j, j + 1 < (binEdges num_bins period).length ∧
        b.1 = (binEdges num_bins period).getD j 0 ∧
        b.2.1 = (((foldedPairs time flux period epoch offset_frac).filter
          (fun pf => binPred (binEdges num_bins period) j pf.1)).map Prod.snd).sum ∧
        b.2.2 = ((foldedPairs time flux period epoch offset_frac).countP
          (fun pf => binPred (binEdges num_bins period) j pf.1) : ℚ) ∧
        0 < (foldedPairs time flux period epoch offset_frac).countP
          (fun pf => binPred (binEdges num_bins period) j pf.1) :=
  ⟨fold_and_bin_fails _ _ _ _ _ _
      (edgesMono_of_pairwise _ (binEdges_pairwise _ _ hnb hp)),
    retainedBins_spec _ _ _ _ _ _⟩

/-- C2 witness: the amended theorem applied to the concrete input of the
counterexample (period 1, two bins requested, both phases in one bin). -/
theorem fold_and_bin_retained_bins_spec_witness :
    fold_and_bin_data [0, 1/2] [1, 3] 1 0 2 0 =
      Except.error "IndexError: index 2 is out of bounds for axis 1 with size 2" :=
  (fold_and_bin_retained_bins_spec [0, 1/2] [1, 3] 1 0 2 0 (by norm_num)
    (by norm_num)).1

/-! ## Claim C1 -/

/-- The bin edges produced for `num_bins = 0.25` - the value that actually
arrives in that parameter from the orchestrator's swapped call - are the
single edge `[0]` (`np.arange(0.25) = [0.]`). -/
theorem binEdges_quarter (period : ℚ) : binEdges (0.25 : ℚ) period = [0] := by
  unfold binEdges np_arange
  have hc : ⌈(0.25 : ℚ)⌉ = 1 := by
    rw [Int.ceil_eq_iff]
    constructor <;> norm_num
  rw [hc]
  norm_num [List.range_succ]

/-- Every call of `fold_and_bin_data` with `num_bins = 0.25` (as made by the
orchestrator) fails: the single-edge histogram passes numpy's monotonicity
check, zero bins are produced, and the column-2 store then raises. -/
theorem fold_and_bin_quarter (time flux : List ℚ) (period epoch offset_frac : ℚ) :
    fold_and_bin_data time flux period epoch (0.25 : ℚ) offset_frac =
      Except.error "IndexError: index 2 is out of bounds for axis 1 with size 2" :=
  fold_and_bin_fails _ _ _ _ _ _ (by rw [binEdges_quarter]; rfl)

/-- C1: every invocation of `compute_modshift_metrics` that passes the
entry-point length assertion raises before a result record is assembled: the
orchestrator passes `offset` and `numBins` to `fold_and_bin_data` in swapped
positions, and `fold_and_bin_data` stores bin counts into column 2 of its
2-column output array, so the first binner call already fails and no
invocation returns the result mapping. -/
theorem compute_modshift_metrics_always_fails (erfcinv : ℝ → ℝ)
    (time flux model : List ℚ) (period_days epoch_days duration_hrs : ℚ)
    (h : time.length = flux.length) :
    ∃ msg, compute_modshift_metrics erfcinv time flux model period_days epoch_days
      duration_hrs = Except.error msg := by
  refine ⟨"IndexError: index 2 is out of bounds for axis 1 with size 2", ?_⟩
  unfold compute_modshift_metrics
  rw [if_neg (by simp [h])]
  simp only [fold_and_bin_quarter, exceptError_bind]

/-- C1 witness: the failure theorem applied at a concrete valid input. -/
theorem compute_modshift_metrics_always_fails_witness :
    ∃ msg, compute_modshift_metrics (fun x => x) [0] [0] [0] 10 2 3 =
      Except.error msg :=
  compute_modshift_metrics_always_fails (fun x => x) [0] [0] [0] 10 2 3 rfl

/-! ## Claim C7 -/

/-- C7: `compute_event_significances` never performs the nearest-phase lookup
the claim describes: its first line, `assert "pri sec ter pos".split() in
results.keys()`, tests whether the four-key LIST is itself a dictionary key;
python hashes the probe and lists are unhashable, so every call raises
`TypeError` - here evaluated on a concrete rescaled series and event record. -/
theorem event_significances_type_error :
    compute_event_significances [((0 : ℚ), (1 : ℚ))] ⟨0, 0, 0, 0⟩ =
      Except.error "TypeError: unhashable type: list" := rfl

/-! ## Claim C8 -/

/-- C8 counterexample: at `period_days = 10`, `duration_hrs = 100000` the
orchestrator's computed bin count `int(10 * 10 * 24 / 100000)` is `0 < 2`,
yet no configuration error is raised: the code has no `num_bins < 2` check
and proceeds into `fold_and_bin_data`, whose IndexError is what surfaces. -/
theorem config_check_counterexample :
    ratTrunc ((10 : ℚ) * 10 * 24 / 100000) = 0 ∧
    compute_modshift_metrics (fun x => x) [0] [0] [0] 10 0 100000 =
      Except.error "IndexError: index 2 is out of bounds for axis 1 with size 2" := by
  constructor
  · unfold ratTrunc
    rw [if_pos (by norm_num)]
    exact Int.floor_eq_zero_iff.mpr (Set.mem_Ico.mpr ⟨by norm_num, by norm_num⟩)
  · unfold compute_modshift_metrics
    rw [if_neg (by simp)]
    simp only [fold_and_bin_quarter, exceptError_bind]

/-- C8 (amended): the orchestrator computes `numBins` but never compares it
with 2; for every input that passes the length assertion - whatever the
computed bin count - it proceeds to call `fold_and_bin_data`, and the error
that surfaces is that function's IndexError, not a configuration error. -/
theorem modshift_error_is_from_binner (erfcinv : ℝ → ℝ)
    (time flux model : List ℚ) (period_days epoch_days duration_hrs : ℚ)
    (h : time.length = flux.length) :
    compute_modshift_metrics erfcinv time flux model period_days epoch_days
      duration_hrs =
      Except.error "IndexError: index 2 is out of bounds for axis 1 with size 2" := by
  unfold compute_modshift_metrics
  rw [if_neg (by simp [h])]
  simp only [fold_and_bin_quarter, exceptError_bind]

/-- C8 witness: the amended theorem applied at a concrete input whose computed
bin count is large (period 10 days, duration 1 hour). -/
theorem modshift_error_is_from_binner_witness :
    compute_modshift_metrics (fun x => x) [0, 1] [0, 0] [0, 0] 10 0 1 =
      Except.error "IndexError: index 2 is out of bounds for axis 1 with size 2" :=
  modshift_error_is_from_binner (fun x => x) [0, 1] [0, 0] [0, 0] 10 0 1 rfl
